import Mathlib

/-!
Verification of the tool-introspection and schema-generation core of the
`assistant` repository, against its natural-language specification.

The development shallowly embeds the relevant Python code:

* `src/assistant/utils.py` : `function_to_schema`, `class_to_function`;
* `src/assistant/agents/agent_utils.py` : `process_functions`,
  `get_simple_planner_func_desc`;
* `src/assistant/agents/grocery_agent.py` : one iteration of the
  executor loop in `call_executor`.

Python callables are modelled by their `inspect`-visible metadata
(name, docstring, ordered parameter list with annotations and defaults);
dictionaries are modelled by association lists with insert-or-overwrite
semantics that preserve first-insertion order, matching CPython dicts.
-/

namespace Assistant

/-- A Python type annotation as it appears on a parameter.  `empty` is
`inspect._empty` (no annotation); `other` is any annotation outside the
seven keys of `type_map` in `function_to_schema`. -/
inductive Ann where
  | str
  | int
  | float
  | bool
  | list
  | dict
  | noneType
  | empty
  | other (name : String)
deriving DecidableEq, Repr

/-- A parameter default: `empty` is the no-default sentinel
`inspect._empty`; `noneVal` is an explicit `None` default; `value` is any
other default value, carried by its `repr` string. -/
inductive PyDefault where
  | empty
  | noneVal
  | value (v : String)
deriving DecidableEq, Repr

/-- One parameter of a Python callable, as reported by
`inspect.signature`. -/
structure Param where
  name : String
  annotation : Ann
  default : PyDefault
deriving DecidableEq, Repr

instance {ε α : Type} [DecidableEq ε] [DecidableEq α] :
    DecidableEq (Except ε α) := fun a b =>
  match a, b with
  | .error x, .error y =>
      if h : x = y then .isTrue (by rw [h])
      else .isFalse (by intro hc; cases hc; exact h rfl)
  | .ok x, .ok y =>
      if h : x = y then .isTrue (by rw [h])
      else .isFalse (by intro hc; cases hc; exact h rfl)
  | .error _, .ok _ => .isFalse (by intro hc; cases hc)
  | .ok _, .error _ => .isFalse (by intro hc; cases hc)

/-- The `inspect`-visible metadata of a Python callable.  `sig` is
`Except.error e` when `inspect.signature` raises `ValueError` with message
`e` (the callable has no introspectable signature), and `Except.ok params`
otherwise; `self` parameters are not included for bound contexts. -/
structure Func where
  name : String
  doc : Option String
  sig : Except String (List Param)
deriving DecidableEq, Repr

/-- The `type_map` lookup in `function_to_schema`
(`type_map.get(param.annotation, "string")`): a total function, since
`dict.get` with a default never raises. -/
def type_map_get (a : Ann) : String :=
  match a with
  | .str => "string"
  | .int => "integer"
  | .float => "number"
  | .bool => "boolean"
  | .list => "array"
  | .dict => "object"
  | .noneType => "null"
  | .empty => "string"
  | .other _ => "string"

/-- Python's `str.strip()` with no arguments: remove leading and
trailing whitespace.  (`Char.isWhitespace` covers the ASCII whitespace
relevant to docstrings.) -/
def strip (s : String) : String :=
  String.mk
    (((s.data.dropWhile Char.isWhitespace).reverse.dropWhile
        Char.isWhitespace).reverse)

/-- The inner `function` object of the schema dict produced by
`function_to_schema`: name, trimmed description, `properties` as an
ordered name-to-type map, and the `required` name list. -/
structure ToolSchema where
  name : String
  description : String
  properties : List (String × String)
  required : List String
deriving DecidableEq, Repr

/-- The two exceptions documented by `function_to_schema`: the
`ValueError` re-raised when `inspect.signature` fails, and the
documented `KeyError` for an unknown type annotation. -/
inductive SchemaError where
  | valueError (msg : String)
  | keyError (msg : String)
deriving DecidableEq, Repr

/-- Shallow embedding of `function_to_schema` (src/assistant/utils.py,
lines 8-83).  When the signature is unavailable the `ValueError` is
re-raised with the function name in the message.  The parameter loop
uses `type_map.get(param.annotation, "string")`, which is total, so the
`except KeyError` branch of the source is dead code and no `keyError`
value is ever produced.  `required` collects, in declaration order, the
parameters whose default is `inspect._empty`. -/
def function_to_schema (f : Func) : Except SchemaError ToolSchema :=
  match f.sig with
  | .error e =>
      .error (.valueError
        ("Failed to get signature for function " ++ f.name ++ ": " ++ e))
  | .ok params =>
      .ok { name := f.name
          , description := strip (f.doc.getD "")
          , properties := params.map (fun p => (p.name, type_map_get p.annotation))
          , required :=
              (params.filter (fun p => p.default == PyDefault.empty)).map Param.name }

/-- Recognizer for the documented `KeyError` outcome of
`function_to_schema`. -/
def isKeyErrorResult : Except SchemaError ToolSchema → Bool
  | .error (.keyError _) => true
  | _ => false

/-- Example callable from the spec and docstring:
`def greet(name: str, age: int = None)` with docstring
`Greets a person`. -/
def greetParams : List Param :=
  [⟨"name", .str, .empty⟩, ⟨"age", .int, .noneVal⟩]

def greetFunc : Func :=
  ⟨"greet", some "Greets a person", .ok greetParams⟩

def greetSchema : ToolSchema :=
  { name := "greet"
  , description := "Greets a person"
  , properties := [("name", "string"), ("age", "integer")]
  , required := ["name"] }

/-- Example of a callable whose signature is unavailable:
`inspect.signature` raises `ValueError`. -/
def opaqueCallable : Func :=
  ⟨"print", none, .error "no signature found for builtin"⟩

/-- Example callable with a docstring padded by whitespace. -/
def paddedDocFunc : Func :=
  ⟨"padded", some "  Adds two numbers  ", .ok []⟩

/-- Example callable with no docstring at all. -/
def undocumentedFunc : Func :=
  ⟨"mystery", none, .ok [⟨"x", .empty, .empty⟩]⟩

/-- The schema `function_to_schema` computes for `paddedDocFunc`. -/
def paddedSchema : ToolSchema :=
  { name := "padded"
  , description := "Adds two numbers"
  , properties := []
  , required := [] }

/-- C1: for every function `f` whose signature can be inspected, the
schema produced by `function_to_schema f` keeps the callable's own name,
its `properties` keys are exactly `f`'s declared parameter names in
declaration order, and `required` is exactly the subsequence of
parameter names whose default is the `inspect._empty` sentinel, in
declaration order; in particular a parameter with default
`inspect._empty` is required and every other parameter (including one
with an explicit `None` default) is optional. -/
theorem schema_properties_and_required (f : Func) (params : List Param)
    (s : ToolSchema) (h : f.sig = .ok params)
    (hnd : (params.map Param.name).Nodup)
    (hs : function_to_schema f = .ok s) :
    s.name = f.name ∧
    s.properties.map Prod.fst = params.map Param.name ∧
    s.required =
      (params.filter (fun p => p.default == PyDefault.empty)).map Param.name ∧
    ∀ p ∈ params, (p.name ∈ s.required ↔ p.default = PyDefault.empty) := by
  simp only [function_to_schema, h] at hs
  cases hs
  refine ⟨rfl, by simp, rfl, ?_⟩
  intro p hp
  constructor
  · intro hmem
    obtain ⟨q, hq, hqe⟩ := List.mem_map.mp hmem
    obtain ⟨hq1, hq2⟩ := List.mem_filter.mp hq
    have hqp : q = p := List.inj_on_of_nodup_map hnd hq1 hp hqe
    subst hqp
    simpa using hq2
  · intro hd
    exact List.mem_map_of_mem Param.name
      (List.mem_filter.mpr ⟨hp, by simp [hd]⟩)

/-- Witness for C1 at the spec's `greet(name: str, age: int = None)`
example: `name` is required, `age` (explicit `None` default) is not. -/
theorem schema_properties_and_required_witness :
    greetSchema.name = greetFunc.name ∧
    greetSchema.properties.map Prod.fst = greetParams.map Param.name ∧
    greetSchema.required =
      (greetParams.filter
        (fun p => p.default == PyDefault.empty)).map Param.name ∧
    ∀ p ∈ greetParams,
      (p.name ∈ greetSchema.required ↔ p.default = PyDefault.empty) :=
  schema_properties_and_required greetFunc greetParams greetSchema rfl
    (by decide) (by decide)

/-- C4: the type-mapping step is total: each of the seven recognized
annotations maps to its JSON-schema tag, and both the absent annotation
(`inspect._empty`) and every annotation outside the recognized set
resolve to the `string` tag rather than failing. -/
theorem type_map_total_with_string_fallback :
    type_map_get .str = "string" ∧ type_map_get .int = "integer" ∧
    type_map_get .float = "number" ∧ type_map_get .bool = "boolean" ∧
    type_map_get .list = "array" ∧ type_map_get .dict = "object" ∧
    type_map_get .noneType = "null" ∧ type_map_get .empty = "string" ∧
    ∀ a, type_map_get (.other a) = "string" :=
  ⟨rfl, rfl, rfl, rfl, rfl, rfl, rfl, rfl, fun _ => rfl⟩

/-- C7: when signature inspection fails, `function_to_schema` propagates
a `ValueError` whose message names the offending callable, and produces
no schema. -/
theorem schema_fails_on_unavailable_signature (f : Func) (e : String)
    (h : f.sig = .error e) :
    function_to_schema f =
      .error (.valueError
        ("Failed to get signature for function " ++ f.name ++ ": " ++ e)) ∧
    ∀ s, function_to_schema f ≠ .ok s := by
  constructor
  · simp [function_to_schema, h]
  · intro s
    simp [function_to_schema, h]

/-- Witness for C7 at a builtin-like callable with no introspectable
signature. -/
theorem schema_fails_on_unavailable_signature_witness :
    function_to_schema opaqueCallable =
      .error (.valueError
        ("Failed to get signature for function " ++ opaqueCallable.name ++
          ": " ++ "no signature found for builtin")) ∧
    ∀ s, function_to_schema opaqueCallable ≠ .ok s :=
  schema_fails_on_unavailable_signature opaqueCallable
    "no signature found for builtin" rfl

/-- C8: the schema description is the callable's docstring stripped of
leading and trailing whitespace, and an absent docstring yields the
empty description rather than an error. -/
theorem schema_description_is_stripped_doc (f : Func) (params : List Param)
    (s : ToolSchema) (h : f.sig = .ok params)
    (hs : function_to_schema f = .ok s) :
    s.description = strip (f.doc.getD "") ∧
    (∀ d, f.doc = some d → s.description = strip d) ∧
    (f.doc = none → s.description = "") := by
  simp only [function_to_schema, h] at hs
  cases hs
  refine ⟨rfl, ?_, ?_⟩
  · intro d hd
    simp [hd]
  · intro hd
    simp [hd]
    decide

/-- Witness for C8 at a callable whose docstring is padded with
whitespace: the description is the stripped docstring. -/
theorem schema_description_is_stripped_doc_witness :
    paddedSchema.description = strip (paddedDocFunc.doc.getD "") ∧
    (∀ d, paddedDocFunc.doc = some d →
      paddedSchema.description = strip d) ∧
    (paddedDocFunc.doc = none → paddedSchema.description = "") :=
  schema_description_is_stripped_doc paddedDocFunc [] paddedSchema rfl
    (by decide)

/-- C9: the `KeyError` documented by `function_to_schema` for unknown
type annotations is unreachable: the lookup
`type_map.get(param.annotation, "string")` is a defaulting access that
cannot raise, so for every callable the result is never a `KeyError`. -/
theorem schema_keyerror_unreachable (f : Func) :
    isKeyErrorResult (function_to_schema f) = false := by
  cases hf : f.sig with
  | error e => simp [function_to_schema, hf, isKeyErrorResult]
  | ok ps => simp [function_to_schema, hf, isKeyErrorResult]

/-! ## class_to_function (src/assistant/utils.py, lines 86-264) -/

def isUpperAZ (c : Char) : Bool := decide ('A' ≤ c) && decide (c ≤ 'Z')

def isLowerAZ (c : Char) : Bool := decide ('a' ≤ c) && decide (c ≤ 'z')

def isDigit09 (c : Char) : Bool := decide ('0' ≤ c) && decide (c ≤ '9')

/-- First regex pass of the `snake_case` helper:
leftmost non-overlapping substitution of pattern `(.)([A-Z][a-z]+)` by
group 1, an underscore, then group 2; `[a-z]+` is greedy and scanning
resumes after each match.  The fuel argument (instantiated with the
list length) only makes the recursion structural; each step consumes at
least one character. -/
def sub1 : Nat → List Char → List Char
  | _, [] => []
  | 0, l => l
  | fuel + 1, c :: rest =>
    match rest with
    | u :: d :: rest2 =>
      if isUpperAZ u && isLowerAZ d then
        c :: '_' :: u :: d ::
          (rest2.takeWhile isLowerAZ ++ sub1 fuel (rest2.dropWhile isLowerAZ))
      else
        c :: sub1 fuel rest
    | _ => c :: sub1 fuel rest

/-- Second regex pass of the `snake_case` helper:
leftmost non-overlapping substitution of `([a-z0-9])([A-Z])` by group 1,
an underscore, then group 2; both matched characters are consumed. -/
def sub2 : List Char → List Char
  | c :: u :: rest =>
    if (isLowerAZ c || isDigit09 c) && isUpperAZ u then
      c :: '_' :: u :: sub2 rest
    else
      c :: sub2 (u :: rest)
  | l => l

/-- The `snake_case` helper inside `class_to_function`: the two regex
passes followed by `.lower()`. -/
def snake_case (s : String) : String :=
  String.mk ((sub2 (sub1 s.data.length s.data)).map Char.toLower)

/-- One method of a Python class as seen by `inspect`: its name, its
parameters minus the implicit `self` receiver, and its docstring. -/
structure Method where
  name : String
  params : List Param
  doc : Option String
deriving DecidableEq, Repr

/-- A Python class as seen by `class_to_function`: its name, the
`__init__` parameters minus `self`, the `__init__` docstring, and its
function members in the (name-sorted) order `inspect.getmembers`
reports them. -/
structure PyClass where
  name : String
  initParams : List Param
  initDoc : Option String
  methods : List Method
deriving DecidableEq, Repr

/-- The body of a callable synthesized by `class_to_function`: the
constructor wrapper's body is `return Cls(args...)`; a method wrapper's
body is `return handle.<methodName>(args...)`. -/
inductive SynBody where
  | construct
  | dispatch (methodName : String)
deriving DecidableEq, Repr

/-- A callable synthesized by `class_to_function`: its `__name__`, its
parameter list, its docstring (the generated source always carries a
docstring, possibly empty), and its body. -/
structure SynFunc where
  name : String
  params : List Param
  doc : String
  body : SynBody
deriving DecidableEq, Repr

/-- `generate_initialize_func`: the constructor wrapper, named
`initialize_<snake_case_class_name>`, whose parameters mirror
`__init__`'s minus `self` and whose body constructs a fresh instance. -/
def generate_initialize_func (cls : PyClass) : SynFunc :=
  { name := "initialize_" ++ snake_case cls.name
  , params := cls.initParams
  , doc := cls.initDoc.getD ""
  , body := .construct }

/-- `generate_method_func`: the wrapper for one public method, named
`<methodname>_<snake_case_class_name>`, whose parameter list prepends an
instance-handle parameter (named after the class, annotated with the
class) and whose body dispatches the original method on the handle. -/
def generate_method_func (cls : PyClass) (m : Method) : SynFunc :=
  { name := m.name ++ "_" ++ snake_case cls.name
  , params := ⟨snake_case cls.name, .other cls.name, .empty⟩ :: m.params
  , doc := m.doc.getD ""
  , body := .dispatch m.name }

/-- CPython dict insert-or-overwrite on an association list: an existing
key keeps its position and gets the new value; a new key is appended. -/
def dictInsert {α : Type} (k : String) (v : α) :
    List (String × α) → List (String × α)
  | [] => [(k, v)]
  | (k2, v2) :: rest =>
    if k2 = k then (k2, v) :: rest else (k2, v2) :: dictInsert k v rest

/-- CPython dict lookup on an association list. -/
def dictGet {α : Type} (d : List (String × α)) (k : String) : Option α :=
  (d.find? (fun e => e.1 == k)).map Prod.snd

/-- Python `name.startswith("_")`: the name's first character is an
underscore. -/
def isPrivateName (s : String) : Bool := s.data.head? == some '_'

/-- The public-method filter of `class_to_function`: function members
whose name does not start with an underscore. -/
def public_methods (cls : PyClass) : List Method :=
  cls.methods.filter (fun m => !(isPrivateName m.name))

/-- Shallow embedding of `class_to_function`: the `functions` dict is
seeded with the constructor wrapper under its own name, then each public
method's wrapper is inserted under its own name. -/
def class_to_function (cls : PyClass) : List (String × SynFunc) :=
  let init_func := generate_initialize_func cls
  let functions := dictInsert init_func.name init_func []
  (public_methods cls).foldl
    (fun fs m =>
      let f := generate_method_func cls m
      dictInsert f.name f fs)
    functions

/-- The runtime behaviour of a Python class, used to give semantics to
the synthesized wrappers: constructing an instance from arguments, and
invoking a named method on an instance with arguments. -/
structure ClassRuntime (Val : Type) where
  construct : List Val → Val
  callMethod : String → Val → List Val → Val

/-- Semantics of calling a synthesized wrapper: the constructor wrapper
builds a fresh instance from its arguments; a method wrapper consumes
its leading instance-handle argument and dispatches the original method
on it (calling it with no handle at all is a `TypeError`, modelled as
`none`). -/
def callSyn {Val : Type} (rt : ClassRuntime Val) (f : SynFunc)
    (args : List Val) : Option Val :=
  match f.body with
  | .construct => some (rt.construct args)
  | .dispatch m =>
    match args with
    | [] => none
    | handle :: rest => some (rt.callMethod m handle rest)

theorem string_append_right_cancel {a b t : String}
    (h : a ++ t = b ++ t) : a = b := by
  apply String.ext
  have hd : a.data ++ t.data = b.data ++ t.data := by
    simpa [String.data_append] using congrArg String.data h
  exact List.append_cancel_right hd

/-- The constructor wrapper's name differs from a method wrapper's name
exactly when the method is not itself called `initialize`. -/
theorem init_name_ne_method_name (cls : PyClass) (m : Method)
    (h : m.name ≠ "initialize") :
    (generate_initialize_func cls).name ≠ (generate_method_func cls m).name := by
  intro he
  apply h
  have lit : "initialize" ++ "_" = "initialize_" := rfl
  have h1 : "initialize" ++ ("_" ++ snake_case cls.name) =
      m.name ++ ("_" ++ snake_case cls.name) := by
    calc "initialize" ++ ("_" ++ snake_case cls.name)
        = ("initialize" ++ "_") ++ snake_case cls.name :=
          (String.append_assoc _ _ _).symm
      _ = "initialize_" ++ snake_case cls.name := by rw [lit]
      _ = m.name ++ "_" ++ snake_case cls.name := he
      _ = m.name ++ ("_" ++ snake_case cls.name) :=
          String.append_assoc _ _ _
  exact (string_append_right_cancel h1).symm

/-- A class of the shape the claim describes — constructor `(a, b=0)`
and one public method — whose single public method happens to be named
`initialize`: its wrapper name `initialize_c` collides with the
constructor wrapper's name. -/
def collideClass : PyClass :=
  { name := "C"
  , initParams := [⟨"a", .int, .empty⟩, ⟨"b", .int, .value "0"⟩]
  , initDoc := some "ctor"
  , methods := [⟨"initialize", [⟨"x", .int, .empty⟩], some "doc"⟩] }

/-- Counterexample to C2 as stated: `collideClass` has a constructor
`(a, b=0)` and exactly one public method `initialize(self, x)`, yet
`class_to_function` yields one callable, not two — the method wrapper
`initialize_c` overwrites the constructor wrapper `initialize_c` in the
functions dict. -/
theorem class_to_function_collision_counterexample :
    collideClass.methods.map Method.name = ["initialize"] ∧
    (∀ mm ∈ collideClass.methods, isPrivateName mm.name = false) ∧
    (class_to_function collideClass).map Prod.fst = ["initialize_c"] ∧
    (class_to_function collideClass).length = 1 := by
  decide

/-- C2 (amended with the collision-free proviso): for any class with a
constructor `(a, b=default)` and one public method `m(self, x)` whose
name is not `initialize`, `class_to_function` yields exactly two
callables, deterministically named `initialize_<snake_case_class_name>`
and `<m>_<snake_case_class_name>`; calling the initialize wrapper
returns the instance the class constructor builds, and calling the
method wrapper on that handle produces the same result as invoking the
method directly on the directly-constructed instance. -/
theorem class_to_function_two_callables {Val : Type} (cls : PyClass)
    (m : Method) (x : Param) (rt : ClassRuntime Val) (va vx : Val)
    (hm : cls.methods = [m])
    (hpub : isPrivateName m.name = false)
    (hni : m.name ≠ "initialize")
    (hx : m.params = [x]) :
    (class_to_function cls).map Prod.fst =
      ["initialize_" ++ snake_case cls.name,
       m.name ++ "_" ++ snake_case cls.name] ∧
    (class_to_function cls).length = 2 ∧
    dictGet (class_to_function cls) ("initialize_" ++ snake_case cls.name) =
      some (generate_initialize_func cls) ∧
    dictGet (class_to_function cls) (m.name ++ "_" ++ snake_case cls.name) =
      some (generate_method_func cls m) ∧
    callSyn rt (generate_initialize_func cls) [va] =
      some (rt.construct [va]) ∧
    callSyn rt (generate_method_func cls m) [rt.construct [va], vx] =
      some (rt.callMethod m.name (rt.construct [va]) [vx]) := by
  have hne := init_name_ne_method_name cls m hni
  have hia : (generate_initialize_func cls).name =
      "initialize_" ++ snake_case cls.name := rfl
  have hma : (generate_method_func cls m).name =
      m.name ++ "_" ++ snake_case cls.name := rfl
  have hcf : class_to_function cls =
      [((generate_initialize_func cls).name, generate_initialize_func cls),
       ((generate_method_func cls m).name, generate_method_func cls m)] := by
    simp [class_to_function, public_methods, hm, hpub, dictInsert, hne]
  have hbeq : ((generate_initialize_func cls).name ==
      (generate_method_func cls m).name) = false := by
    simpa using hne
  refine ⟨?_, ?_, ?_, ?_, rfl, rfl⟩
  · rw [hcf, ← hia, ← hma]; rfl
  · rw [hcf]; rfl
  · rw [hcf, ← hia]
    simp [dictGet, List.find?]
  · rw [hcf, ← hma]
    simp [dictGet, List.find?, hbeq]

/-- The spec's `Counter` example class: `__init__(self, start: int = 0)`
and one public method `increment(self, step: int = 1)`. -/
def counterMethod : Method :=
  ⟨"increment", [⟨"step", .int, .value "1"⟩], some "Increment the counter."⟩

def counterClass : PyClass :=
  { name := "Counter"
  , initParams := [⟨"start", .int, .value "0"⟩]
  , initDoc := some "Make a counter."
  , methods := [counterMethod] }

/-- A concrete runtime for `counterClass`, with string-valued instances
so both sides of the equivalence evaluate. -/
def counterRuntime : ClassRuntime String :=
  { construct := fun args => String.intercalate "," ("obj" :: args)
  , callMethod := fun mname handle args =>
      String.intercalate "," (mname :: handle :: args) }

/-- Witness for the amended C2 at the `Counter` class. -/
theorem class_to_function_two_callables_witness :
    (class_to_function counterClass).map Prod.fst =
      ["initialize_" ++ snake_case counterClass.name,
       counterMethod.name ++ "_" ++ snake_case counterClass.name] ∧
    (class_to_function counterClass).length = 2 ∧
    dictGet (class_to_function counterClass)
        ("initialize_" ++ snake_case counterClass.name) =
      some (generate_initialize_func counterClass) ∧
    dictGet (class_to_function counterClass)
        (counterMethod.name ++ "_" ++ snake_case counterClass.name) =
      some (generate_method_func counterClass counterMethod) ∧
    callSyn counterRuntime (generate_initialize_func counterClass) ["7"] =
      some (counterRuntime.construct ["7"]) ∧
    callSyn counterRuntime (generate_method_func counterClass counterMethod)
        [counterRuntime.construct ["7"], "3"] =
      some (counterRuntime.callMethod counterMethod.name
        (counterRuntime.construct ["7"]) ["3"]) :=
  class_to_function_two_callables counterClass counterMethod
    ⟨"step", .int, .value "1"⟩ counterRuntime "7" "3" rfl (by decide)
    (by decide) rfl

/-! ## process_functions (src/assistant/agents/agent_utils.py) -/

/-- A schema entry of the `tools_schema` list: the entries built by
`function_to_schema` carry a `parameters` object (properties and
required list); the appended `instructions_complete` sentinel entry has
no `parameters` key. -/
structure SchemaEntry where
  name : String
  description : String
  parameters : Option (List (String × String) × List String)
deriving DecidableEq, Repr

def ToolSchema.toEntry (s : ToolSchema) : SchemaEntry :=
  ⟨s.name, s.description, some (s.properties, s.required)⟩

/-- The fixed sentinel schema entry appended by `process_functions`. -/
def instructions_complete_entry : SchemaEntry :=
  ⟨"instructions_complete",
   "Function should be called when we have completed ALL of the instructions.",
   none⟩

/-- A source accepted by `process_functions`: a module reference
(modelled by the list of functions `extract_functions_from_package`
returns for it, i.e. the functions defined in that module) or a
class. -/
inductive Source where
  | module (funcs : List Func)
  | pyclass (cls : PyClass)

/-- A synthesized callable, seen as an ordinary Python function object:
its `__name__`, its `__doc__` (the generated source always carries a
docstring literal, possibly empty) and its introspectable signature. -/
def SynFunc.toFunc (f : SynFunc) : Func := ⟨f.name, some f.doc, .ok f.params⟩

/-- The function objects contributed by one source: for a module, the
functions defined in it; for a class, the values of
`class_to_function`. -/
def source_functions : Source → List Func
  | .module fs => fs
  | .pyclass c => (class_to_function c).map (fun nf => nf.2.toFunc)

/-- The `functions_archive` dict of `process_functions`: each source's
functions are inserted keyed by `func.__name__`, with value the pair of
the function and its `inspect.getdoc` docstring (the `cleandoc`
whitespace normalization of `getdoc` is abstracted; no claim concerns
it). -/
def functions_archive (sources : List Source) :
    List (String × Func × Option String) :=
  sources.foldl
    (fun archive src =>
      (source_functions src).foldl
        (fun a f => dictInsert f.name (f, f.doc) a) archive)
    []

/-- The list comprehension
`[function_to_schema(func) for func in func_map.values()]`: the first
raised exception propagates. -/
def schemas_of : List (String × Func) → Except SchemaError (List ToolSchema)
  | [] => .ok []
  | e :: rest =>
    match function_to_schema e.2 with
    | .error err => .error err
    | .ok s =>
      match schemas_of rest with
      | .error err => .error err
      | .ok ss => .ok (s :: ss)

/-- Rendering of one parameter inside `str(inspect.signature(func))`. -/
def renderAnn : Ann → String
  | .str => "str"
  | .int => "int"
  | .float => "float"
  | .bool => "bool"
  | .list => "list"
  | .dict => "dict"
  | .noneType => "None"
  | .empty => ""
  | .other n => n

def renderDefault : PyDefault → String
  | .empty => ""
  | .noneVal => "None"
  | .value v => v

def renderParam (p : Param) : String :=
  match p.annotation, p.default with
  | .empty, .empty => p.name
  | .empty, d => p.name ++ "=" ++ renderDefault d
  | a, .empty => p.name ++ ": " ++ renderAnn a
  | a, d => p.name ++ ": " ++ renderAnn a ++ " = " ++ renderDefault d

/-- `str(inspect.signature(func))`: the parenthesized, comma-separated
parameter list. -/
def sigRender (ps : List Param) : String :=
  "(" ++ String.intercalate ", " (ps.map renderParam) ++ ")"

/-- The key the `get_simple_planner_func_desc` comprehension builds for
a function: its name immediately followed by its rendered signature. -/
def sigKey (f : Func) : String :=
  match f.sig with
  | .ok ps => sigRender ps
  | .error _ => ""

/-- Shallow embedding of `get_simple_planner_func_desc`
(src/assistant/agents/agent_utils.py, lines 85-129): builds a dict
keyed by the string `name` followed by `inspect.signature(func)` — not
by the bare function name — whose values come from the external LLM
summarization collaborator, here the parameter `summarize`.  An
unavailable signature raises the `inspect.signature` `ValueError`. -/
def get_simple_planner_func_desc (summarize : Option String → String) :
    List (String × Func × Option String) →
      Except SchemaError (List (String × String))
  | [] => .ok []
  | e :: rest =>
    match e.2.1.sig with
    | .error err => .error (.valueError err)
    | .ok ps =>
      match get_simple_planner_func_desc summarize rest with
      | .error err => .error err
      | .ok r => .ok ((e.1 ++ sigRender ps, summarize e.2.2) :: r)

/-- Shallow embedding of `process_functions`
(src/assistant/agents/agent_utils.py, lines 132-182): build the
archive, project the callables map, build the schema list and append
the sentinel entry, then build the descriptions map through the LLM
collaborator. -/
def process_functions (sources : List Source)
    (summarize : Option String → String) :
    Except SchemaError
      (List (String × Func) × List (String × String) × List SchemaEntry) :=
  let archive := functions_archive sources
  let func_map := archive.map (fun e => (e.1, e.2.1))
  match schemas_of func_map with
  | .error err => .error err
  | .ok schemas =>
    let tools_schema :=
      schemas.map ToolSchema.toEntry ++ [instructions_complete_entry]
    match get_simple_planner_func_desc summarize archive with
    | .error err => .error err
    | .ok func_desc_map => .ok (func_map, func_desc_map, tools_schema)

theorem mem_dictInsert {α : Type} {d : List (String × α)} {k : String}
    {v : α} {e : String × α} (he : e ∈ dictInsert k v d) :
    e = (k, v) ∨ e ∈ d := by
  induction d with
  | nil =>
    simp only [dictInsert, List.mem_singleton] at he
    exact Or.inl he
  | cons hd tl ih =>
    obtain ⟨k2, v2⟩ := hd
    simp only [dictInsert] at he
    by_cases hk : k2 = k
    · rw [if_pos hk] at he
      rcases List.mem_cons.mp he with h1 | h2
      · subst hk; exact Or.inl h1
      · exact Or.inr (List.mem_cons_of_mem _ h2)
    · rw [if_neg hk] at he
      rcases List.mem_cons.mp he with h1 | h2
      · exact Or.inr (List.mem_cons.mpr (Or.inl h1))
      · rcases ih h2 with h3 | h4
        · exact Or.inl h3
        · exact Or.inr (List.mem_cons_of_mem _ h4)

theorem inner_fold_preserve (P : String × Func × Option String → Prop)
    (fs : List Func) (hf : ∀ f ∈ fs, P (f.name, f, f.doc)) :
    ∀ acc, (∀ e ∈ acc, P e) →
      ∀ e ∈ fs.foldl (fun a f => dictInsert f.name (f, f.doc) a) acc, P e := by
  induction fs with
  | nil => intro acc hacc e he; exact hacc e he
  | cons f fs ih =>
    intro acc hacc e he
    refine ih (fun g hg => hf g (List.mem_cons_of_mem _ hg)) _ ?_ e he
    intro e2 he2
    rcases mem_dictInsert he2 with h1 | h2
    · subst h1; exact hf f (List.mem_cons_self _ _)
    · exact hacc e2 h2

theorem functions_archive_forall (P : String × Func × Option String → Prop)
    (sources : List Source)
    (hs : ∀ src ∈ sources, ∀ f ∈ source_functions src, P (f.name, f, f.doc)) :
    ∀ e ∈ functions_archive sources, P e := by
  suffices hgen : ∀ acc, (∀ e ∈ acc, P e) →
      ∀ e ∈ sources.foldl
        (fun archive src =>
          (source_functions src).foldl
            (fun a f => dictInsert f.name (f, f.doc) a) archive) acc, P e by
    exact hgen [] (by simp)
  induction sources with
  | nil => intro acc hacc e he; exact hacc e he
  | cons src rest ih =>
    intro acc hacc e he
    refine ih (fun s hsm f hfm =>
        hs s (List.mem_cons_of_mem _ hsm) f hfm) _ ?_ e he
    exact inner_fold_preserve P _ (hs src (List.mem_cons_self _ _)) acc hacc

/-- Every archive entry is keyed by its function's own `__name__`. -/
theorem functions_archive_key_eq (sources : List Source) :
    ∀ e ∈ functions_archive sources, e.1 = e.2.1.name :=
  functions_archive_forall (fun e => e.1 = e.2.1.name) sources
    (fun _ _ _ _ => rfl)

theorem function_to_schema_ok_name {f : Func} {s : ToolSchema}
    (h : function_to_schema f = .ok s) : s.name = f.name := by
  cases hf : f.sig with
  | error e => simp [function_to_schema, hf] at h
  | ok ps =>
    simp only [function_to_schema, hf, Except.ok.injEq] at h
    rw [← h]

theorem schemas_of_names (fm : List (String × Func)) (ss : List ToolSchema)
    (hk : ∀ e ∈ fm, e.1 = e.2.name)
    (h : schemas_of fm = .ok ss) :
    ss.map ToolSchema.name = fm.map Prod.fst := by
  induction fm generalizing ss with
  | nil =>
    simp only [schemas_of, Except.ok.injEq] at h
    rw [← h]; rfl
  | cons e rest ih =>
    simp only [schemas_of] at h
    cases hfe : function_to_schema e.2 with
    | error err => rw [hfe] at h; cases h
    | ok s =>
      rw [hfe] at h
      cases hrest : schemas_of rest with
      | error err => rw [hrest] at h; cases h
      | ok ss2 =>
        rw [hrest] at h
        cases h
        have h1 : s.name = e.1 :=
          (function_to_schema_ok_name hfe).trans
            (hk e (List.mem_cons_self _ _)).symm
        have h2 := ih ss2 (fun g hg => hk g (List.mem_cons_of_mem _ hg)) hrest
        simpa [h1] using h2

theorem desc_map_keys (summarize : Option String → String)
    (archive : List (String × Func × Option String))
    (dm : List (String × String))
    (h : get_simple_planner_func_desc summarize archive = .ok dm) :
    dm.map Prod.fst = archive.map (fun e => e.1 ++ sigKey e.2.1) := by
  induction archive generalizing dm with
  | nil =>
    simp only [get_simple_planner_func_desc, Except.ok.injEq] at h
    rw [← h]; rfl
  | cons e rest ih =>
    simp only [get_simple_planner_func_desc] at h
    cases hsig : e.2.1.sig with
    | error err => rw [hsig] at h; cases h
    | ok ps =>
      rw [hsig] at h
      cases hrest : get_simple_planner_func_desc summarize rest with
      | error err => rw [hrest] at h; cases h
      | ok r =>
        rw [hrest] at h
        cases h
        have h2 := ih r hrest
        simp [h2, sigKey, hsig]

/-- The spec's module example: `def add(a: int, b: int)` with docstring
`Adds two numbers`. -/
def addFunc : Func :=
  ⟨"add", some "Adds two numbers",
   .ok [⟨"a", .int, .empty⟩, ⟨"b", .int, .empty⟩]⟩

def addSchemaEntry : SchemaEntry :=
  ⟨"add", "Adds two numbers",
   some ([("a", "integer"), ("b", "integer")], ["a", "b"])⟩

def addSources : List Source := [.module [addFunc]]

def addSummarize : Option String → String := fun _ => "summary"

/-- Counterexample to C3 as stated: registering the single module
function `add(a: int, b: int)` yields a callables map keyed by `add`
but a descriptions map keyed by `add(a: int, b: int)` — the
descriptions keys are name-plus-signature strings, so
`descriptions.keys()` never equals `callables.keys()` for any function
with a rendered signature. -/
theorem process_functions_desc_keys_counterexample :
    process_functions addSources addSummarize =
      .ok ([("add", addFunc)],
        [("add(a: int, b: int)", "summary")],
        [addSchemaEntry, instructions_complete_entry]) ∧
    (["add(a: int, b: int)"] : List String) ≠ ["add"] := by
  decide

/-- C3 (amended): after `process_functions` succeeds on sources none of
whose functions is named `instructions_complete`, the schema-list names
are exactly the callables' keys plus the one sentinel name
`instructions_complete`, which is present among the schemas but absent
from the callables; the descriptions map is parallel to the callables
map but keyed by the function name immediately followed by its rendered
signature, not by the bare name. -/
theorem process_functions_parallel_maps
    (sources : List Source) (summarize : Option String → String)
    (fm : List (String × Func)) (dm : List (String × String))
    (ts : List SchemaEntry)
    (hok : process_functions sources summarize = .ok (fm, dm, ts))
    (hsent : ∀ src ∈ sources, ∀ f ∈ source_functions src,
      f.name ≠ "instructions_complete") :
    ts.map SchemaEntry.name = fm.map Prod.fst ++ ["instructions_complete"] ∧
    "instructions_complete" ∉ fm.map Prod.fst ∧
    "instructions_complete" ∈ ts.map SchemaEntry.name ∧
    dm.map Prod.fst = fm.map (fun e => e.1 ++ sigKey e.2) := by
  simp only [process_functions] at hok
  cases hsch : schemas_of
      ((functions_archive sources).map (fun e => (e.1, e.2.1))) with
  | error err => rw [hsch] at hok; cases hok
  | ok schemas =>
    rw [hsch] at hok
    cases hdm : get_simple_planner_func_desc summarize
        (functions_archive sources) with
    | error err => rw [hdm] at hok; cases hok
    | ok dm2 =>
      rw [hdm] at hok
      simp only [Except.ok.injEq, Prod.mk.injEq] at hok
      obtain ⟨h1, h2, h3⟩ := hok
      subst h1; subst h2; subst h3
      have hk : ∀ e ∈ (functions_archive sources).map
          (fun e => (e.1, e.2.1)), e.1 = e.2.name := by
        intro e he
        obtain ⟨a, ha, hae⟩ := List.mem_map.mp he
        rw [← hae]
        exact functions_archive_key_eq sources a ha
      have hnames := schemas_of_names _ schemas hk hsch
      refine ⟨?_, ?_, ?_, ?_⟩
      · have e1 : List.map SchemaEntry.name
            (List.map ToolSchema.toEntry schemas ++
              [instructions_complete_entry]) =
            List.map ToolSchema.name schemas ++ ["instructions_complete"] := by
          simp [ToolSchema.toEntry, instructions_complete_entry,
            Function.comp]
        rw [e1, hnames]
      · intro hmem
        simp only [List.map_map] at hmem
        obtain ⟨a, ha, hae⟩ := List.mem_map.mp hmem
        exact functions_archive_forall
          (fun e => e.1 ≠ "instructions_complete") sources
          (fun src hsrc f hf => hsent src hsrc f hf) a ha hae
      · simp [instructions_complete_entry]
      · have hdk := desc_map_keys summarize _ dm2 hdm
        rw [hdk]
        simp [List.map_map, Function.comp]

/-- Witness for the amended C3 at the one-module `add` source. -/
theorem process_functions_parallel_maps_witness :
    ([addSchemaEntry, instructions_complete_entry].map SchemaEntry.name =
      [("add", addFunc)].map Prod.fst ++ ["instructions_complete"]) ∧
    "instructions_complete" ∉ [("add", addFunc)].map Prod.fst ∧
    "instructions_complete" ∈
      [addSchemaEntry, instructions_complete_entry].map SchemaEntry.name ∧
    [("add(a: int, b: int)", "summary")].map Prod.fst =
      [("add", addFunc)].map (fun e => e.1 ++ sigKey e.2) :=
  process_functions_parallel_maps addSources addSummarize
    [("add", addFunc)] [("add(a: int, b: int)", "summary")]
    [addSchemaEntry, instructions_complete_entry] (by decide) (by decide)

/-! ## One iteration of the executor loop
(`call_executor`, src/assistant/agents/grocery_agent.py, lines 62-123) -/

/-- One tool call requested by a model turn: its id, the tool name and
the raw JSON arguments string. -/
structure ToolCall where
  id : String
  name : String
  arguments : String
deriving DecidableEq, Repr

/-- One model turn: assistant content plus the requested tool calls. -/
structure ModelTurn where
  content : String
  tool_calls : List ToolCall
deriving DecidableEq, Repr

/-- A single-quote character as a string. -/
def squote : String := "\x27"

/-- The not-implemented error message of `call_executor`. -/
def notImplementedMsg (name : String) : String :=
  "Function " ++ squote ++ name ++ squote ++ " not implemented."

/-- The content fed back to the model for one tool call: either the
tool's return value or the structured error dict with single key
`error` (its JSON serialization by `json.dumps`, with the `str`
fallback, is not modelled; no claim concerns it). -/
inductive Payload (Val : Type) where
  | result (v : Val)
  | errorPayload (msg : String)
deriving DecidableEq, Repr

/-- The tool-role message appended for one handled tool call. -/
structure ToolMsg (Val : Type) where
  tool_call_id : String
  content : Payload Val
deriving DecidableEq, Repr

/-- Keyword arguments decoded from a JSON arguments payload. -/
abbrev PyKwargs (Val : Type) := List (String × Val)

/-- A registered tool at invocation time: it either returns a value or
raises an exception carrying a message. -/
abbrev PyCallable (Val : Type) := PyKwargs Val → Except String Val

/-- The `func_map` handed to `call_executor`. -/
abbrev FuncMap (Val : Type) := List (String × PyCallable Val)

/-- The outcome of one iteration of the `while True` loop in
`call_executor`: either the `break` on the sentinel tool, or another
round with the tool messages appended for the model's next turn. -/
inductive StepResult (Val : Type) where
  | complete
  | continueWith (msgs : List (ToolMsg Val))
deriving DecidableEq, Repr

/-- The body of the `for tool in tool_calls` loop: decode the JSON
arguments (a malformed payload skips the call, `none`); resolve the
name against `func_map`; invoke the tool, capturing any exception as
the error payload; an unknown name produces the not-implemented error
payload. -/
def handle_tool {Val : Type} (func_map : FuncMap Val)
    (decode : String → Option (PyKwargs Val)) (t : ToolCall) :
    Option (ToolMsg Val) :=
  match decode t.arguments with
  | none => none
  | some args =>
    match dictGet func_map t.name with
    | some f =>
      match f args with
      | .ok v => some ⟨t.id, .result v⟩
      | .error e => some ⟨t.id, .errorPayload e⟩
    | none => some ⟨t.id, .errorPayload (notImplementedMsg t.name)⟩

/-- One iteration of the executor loop over one model turn: `break`
when the turn has tool calls and the FIRST one is the sentinel
`instructions_complete`; `continue` with no messages when there are no
tool calls; otherwise handle every requested call in order. -/
def executor_step {Val : Type} (func_map : FuncMap Val)
    (decode : String → Option (PyKwargs Val)) (turn : ModelTurn) :
    StepResult Val :=
  match turn.tool_calls with
  | [] => .continueWith []
  | t0 :: rest =>
    if t0.name = "instructions_complete" then .complete
    else .continueWith ((t0 :: rest).filterMap (handle_tool func_map decode))

/-- C5 (amended): whenever the FIRST tool call of a model turn is the
sentinel `instructions_complete`, the loop breaks — transitioning to
COMPLETE — without resolving anything against the callables map.  (The
turns produced under `parallel_tool_calls=False` carry at most one tool
call, for which first-position and membership coincide.) -/
theorem executor_sentinel_first_terminates {Val : Type}
    (func_map : FuncMap Val) (decode : String → Option (PyKwargs Val))
    (turn : ModelTurn) (t0 : ToolCall) (rest : List ToolCall)
    (hcalls : turn.tool_calls = t0 :: rest)
    (hname : t0.name = "instructions_complete") :
    executor_step func_map decode turn = .complete := by
  simp [executor_step, hcalls, hname]

def cDecode : String → Option (PyKwargs String) := fun _ => some []

def cFuncMap : FuncMap String := []

/-- A turn in which the sentinel is among the requested tool calls but
not first. -/
def sentinelSecondTurn : ModelTurn :=
  ⟨"", [⟨"1", "foo", "0"⟩, ⟨"2", "instructions_complete", "0"⟩]⟩

/-- Counterexample to C5 as stated: in a turn whose requested tool
calls contain the sentinel in second position, the loop does NOT
terminate — it continues, and it does resolve `instructions_complete`
against the callables map, producing the not-implemented error
payload. -/
theorem executor_sentinel_not_first_counterexample :
    "instructions_complete" ∈
      sentinelSecondTurn.tool_calls.map ToolCall.name ∧
    executor_step cFuncMap cDecode sentinelSecondTurn =
      .continueWith
        [⟨"1", .errorPayload (notImplementedMsg "foo")⟩,
         ⟨"2", .errorPayload (notImplementedMsg "instructions_complete")⟩] ∧
    executor_step cFuncMap cDecode sentinelSecondTurn ≠
      StepResult.complete := by
  decide

/-- Witness for the amended C5: a single-call turn selecting the
sentinel terminates the loop. -/
theorem executor_sentinel_first_terminates_witness :
    executor_step cFuncMap cDecode
      ⟨"", [⟨"9", "instructions_complete", "0"⟩]⟩ = .complete :=
  executor_sentinel_first_terminates cFuncMap cDecode
    ⟨"", [⟨"9", "instructions_complete", "0"⟩]⟩
    ⟨"9", "instructions_complete", "0"⟩ [] rfl rfl

/-- C6: a registered tool invocation that raises is captured as the
structured payload with single key `error` and the exception message,
returned to the model as an ordinary tool response, and the loop
continues to the next model turn instead of terminating or
propagating. -/
theorem executor_captures_tool_errors {Val : Type}
    (func_map : FuncMap Val) (decode : String → Option (PyKwargs Val))
    (turn : ModelTurn) (t0 : ToolCall) (rest : List ToolCall)
    (t : ToolCall) (args : PyKwargs Val) (f : PyCallable Val) (e : String)
    (hcalls : turn.tool_calls = t0 :: rest)
    (ht0 : t0.name ≠ "instructions_complete")
    (hmem : t ∈ turn.tool_calls)
    (hdec : decode t.arguments = some args)
    (hfind : dictGet func_map t.name = some f)
    (herr : f args = .error e) :
    executor_step func_map decode turn =
      .continueWith
        (turn.tool_calls.filterMap (handle_tool func_map decode)) ∧
    (⟨t.id, .errorPayload e⟩ : ToolMsg Val) ∈
      turn.tool_calls.filterMap (handle_tool func_map decode) := by
  constructor
  · simp [executor_step, hcalls, ht0]
  · refine List.mem_filterMap.mpr ⟨t, hmem, ?_⟩
    simp [handle_tool, hdec, hfind, herr]

/-- A registered tool that always raises. -/
def failingTool : PyCallable String := fun _ => .error "out of stock"

def failFuncMap : FuncMap String := [("buy", failingTool)]

def failTurn : ModelTurn := ⟨"", [⟨"42", "buy", "0"⟩]⟩

/-- Witness for C6: the raising tool `buy` yields the error payload
`out of stock` as an ordinary tool message and the loop continues. -/
theorem executor_captures_tool_errors_witness :
    executor_step failFuncMap cDecode failTurn =
      .continueWith
        (failTurn.tool_calls.filterMap (handle_tool failFuncMap cDecode)) ∧
    (⟨"42", .errorPayload "out of stock"⟩ : ToolMsg String) ∈
      failTurn.tool_calls.filterMap (handle_tool failFuncMap cDecode) :=
  executor_captures_tool_errors failFuncMap cDecode failTurn
    ⟨"42", "buy", "0"⟩ [] ⟨"42", "buy", "0"⟩ [] failingTool "out of stock"
    rfl (by decide) (by decide) rfl rfl rfl

/-- C10: a decoded tool call whose name is not a key of the callables
map (with the sentinel-termination condition not firing) does not
raise: it yields the structured not-implemented error payload as an
ordinary tool response and the loop continues. -/
theorem executor_unknown_tool_not_implemented {Val : Type}
    (func_map : FuncMap Val) (decode : String → Option (PyKwargs Val))
    (turn : ModelTurn) (t0 : ToolCall) (rest : List ToolCall)
    (t : ToolCall) (args : PyKwargs Val)
    (hcalls : turn.tool_calls = t0 :: rest)
    (ht0 : t0.name ≠ "instructions_complete")
    (hmem : t ∈ turn.tool_calls)
    (hdec : decode t.arguments = some args)
    (hfind : dictGet func_map t.name = none) :
    executor_step func_map decode turn =
      .continueWith
        (turn.tool_calls.filterMap (handle_tool func_map decode)) ∧
    (⟨t.id, .errorPayload (notImplementedMsg t.name)⟩ : ToolMsg Val) ∈
      turn.tool_calls.filterMap (handle_tool func_map decode) := by
  constructor
  · simp [executor_step, hcalls, ht0]
  · refine List.mem_filterMap.mpr ⟨t, hmem, ?_⟩
    simp [handle_tool, hdec, hfind]

def ghostTurn : ModelTurn := ⟨"", [⟨"7", "ghost", "0"⟩]⟩

/-- Witness for C10: the unregistered tool name `ghost` yields the
not-implemented error payload and the loop continues. -/
theorem executor_unknown_tool_not_implemented_witness :
    executor_step cFuncMap cDecode ghostTurn =
      .continueWith
        (ghostTurn.tool_calls.filterMap (handle_tool cFuncMap cDecode)) ∧
    (⟨"7", .errorPayload (notImplementedMsg "ghost")⟩ : ToolMsg String) ∈
      ghostTurn.tool_calls.filterMap (handle_tool cFuncMap cDecode) :=
  executor_unknown_tool_not_implemented cFuncMap cDecode ghostTurn
    ⟨"7", "ghost", "0"⟩ [] ⟨"7", "ghost", "0"⟩ []
    rfl (by decide) (by decide) rfl rfl

end Assistant
